import Mathlib

/-!
Verification development for `scripts/performance/regression-analysis.py`,
a performance-regression analysis tool.  The Python script compares a
baseline performance snapshot against a current snapshot, flags metrics
that degraded beyond a configurable threshold, classifies severity,
generates recommendations and drives the process exit code.

The embedding below mirrors the Python source.  JSON values read with
`dict.get(key, default)` are modelled by `Option` fields together with
`Option.getD`; numeric JSON values are modelled by `ℚ` (byte counts in
the bundle snapshot by `ℤ`, as they are JSON integers); Python `dict`s
used for grouping are modelled by association lists with
insertion-order / overwrite-on-duplicate semantics, exactly as CPython
dictionaries behave.
-/

namespace RegressionAnalysis

/-- Rounding half to even, used by the model of CPython's percent
formatting `"{:.1%}".format`. -/
def roundHalfEven (q : ℚ) : ℤ :=
  let f := ⌊q⌋
  let r := q - (f : ℚ)
  if r < 1/2 then f
  else if 1/2 < r then f + 1
  else if f % 2 = 0 then f else f + 1

/-- Model of the Python format specifier `{x:.1%}` applied to a
non-negative rational: the value scaled to tenths of a percent, rounded
half to even, printed with one decimal digit and a percent sign. -/
def formatPct (q : ℚ) : String :=
  let n := roundHalfEven (q * 1000)
  toString (n / 10) ++ "." ++ toString (n % 10) ++ "%"

/-- One record of the regression report, as built by the Python script
(a dict with keys `type`, `metric`, `baseline`, `current`, `change`,
`severity`, `description`; the `type` key is called `rtype` here since
its Python name is unavailable). -/
structure Regression where
  rtype : String
  metric : String
  baseline : ℚ
  current : ℚ
  change : ℚ
  severity : String
  description : String
  deriving DecidableEq, Repr

/-- A Lighthouse page-audit record: `device`, `page` and the four score
categories, each read by the script with `item.get(field, default)`. -/
structure LighthouseItem where
  device : Option String
  page : Option String
  performance : Option ℚ
  accessibility : Option ℚ
  bestPractices : Option ℚ
  seo : Option ℚ
  deriving DecidableEq, Repr

/-- The four score categories compared by the script
(`metrics = ['performance', 'accessibility', 'bestPractices', 'seo']`). -/
inductive LhMetric where
  | performance
  | accessibility
  | bestPractices
  | seo
  deriving DecidableEq, Repr

/-- The key under which a score category is stored in a page-audit
record. -/
def LhMetric.name : LhMetric → String
  | .performance => "performance"
  | .accessibility => "accessibility"
  | .bestPractices => "bestPractices"
  | .seo => "seo"

/-- The fixed iteration order of the four score categories. -/
def lhMetrics : List LhMetric :=
  [.performance, .accessibility, .bestPractices, .seo]

/-- Field access `item.get(metric)` for a score category. -/
def lhMetricValue (it : LighthouseItem) : LhMetric → Option ℚ
  | .performance => it.performance
  | .accessibility => it.accessibility
  | .bestPractices => it.bestPractices
  | .seo => it.seo

/-- The grouping key
`f"{item.get('device', 'unknown')}-{item.get('page', 'unknown')}"`. -/
def lhKey (it : LighthouseItem) : String :=
  it.device.getD "unknown" ++ "-" ++ it.page.getD "unknown"

/-- A load-test record: scenario name plus the two metrics the script
reads through nested `get` chains
(`metrics.http_req_duration.avg` and `metrics.http_req_failed.rate`);
a chain whose intermediate objects are missing yields the default `0`,
which the `Option.getD 0` on these flattened fields reproduces. -/
structure LoadTestItem where
  scenario : Option String
  durationAvg : Option ℚ
  failedRate : Option ℚ
  deriving DecidableEq, Repr

/-- The grouping key `item.get('scenario', 'unknown')`. -/
def ltKey (it : LoadTestItem) : String :=
  it.scenario.getD "unknown"

/-- One entry of a benchmark `testResults` array (Jest performance test
format): a `duration` and a `title`, both optional. -/
structure BenchResult where
  duration : Option ℚ
  title : Option String
  deriving DecidableEq, Repr

/-- One benchmark category object, holding
`testResults = test.get('testResults', [])`. -/
structure BenchTest where
  testResults : List BenchResult
  deriving DecidableEq, Repr

/-- The benchmark snapshot: the three fixed categories.  The script
reads each with `benchmarks.get(test_type, {})` and then skips the
category when the resulting dict is falsy, so `none` models a category
that is absent or an empty object. -/
structure Benchmarks where
  memory : Option BenchTest
  cpu : Option BenchTest
  algorithm : Option BenchTest
  deriving DecidableEq, Repr

/-- The three fixed benchmark categories iterated by the script
(`for test_type in ['memory', 'cpu', 'algorithm']`). -/
inductive BenchType where
  | memory
  | cpu
  | algorithm
  deriving DecidableEq, Repr

/-- The dictionary key of a benchmark category. -/
def BenchType.name : BenchType → String
  | .memory => "memory"
  | .cpu => "cpu"
  | .algorithm => "algorithm"

/-- The fixed iteration order of the benchmark categories. -/
def benchTypes : List BenchType :=
  [.memory, .cpu, .algorithm]

/-- Category access `benchmarks.get(test_type, {})`, with `none` for an
absent or empty (falsy) category object. -/
def Benchmarks.get (b : Benchmarks) : BenchType → Option BenchTest
  | .memory => b.memory
  | .cpu => b.cpu
  | .algorithm => b.algorithm

/-- The bundle snapshot object, holding
`totalSize = bundle.get('totalSize', 0)` (a JSON integer byte count). -/
structure BundleData where
  totalSize : Option ℤ
  deriving DecidableEq, Repr

/-- A full performance snapshot, the shape shared by
`self.baseline_data` and `self.current_data`: the script reads
`data.get('lighthouse', [])`, `data.get('loadTests', [])`,
`data.get('benchmarks', {})` and `data.get('bundle', {})`, so absent
keys coincide with the printed defaults; `bundle = none` models an
absent or empty (falsy) bundle object. -/
structure PerfData where
  lighthouse : List LighthouseItem
  loadTests : List LoadTestItem
  benchmarks : Benchmarks
  bundle : Option BundleData
  deriving DecidableEq, Repr

/-- One insertion `d[k] = v` into a CPython dict modelled as an
association list: if the key is present its value is overwritten in
place, otherwise the pair is appended (insertion order is preserved,
as CPython dictionaries do). -/
def insertKey {α : Type} (g : List (String × α)) (k : String) (v : α) :
    List (String × α) :=
  if g.any (fun p => p.1 == k) then
    g.map (fun p => if p.1 = k then (p.1, v) else p)
  else g ++ [(k, v)]

/-- The grouping loops of the script
(`for item in data: grouped[key(item)] = item`). -/
def groupByKey {α : Type} (key : α → String) (l : List α) :
    List (String × α) :=
  l.foldl (fun g it => insertKey g (key it) it) []

/-- The regression record appended for a degraded Lighthouse score
category (`regression-analysis.py`, lines 133-141). -/
def mkLhRegression (key : String) (m : LhMetric) (bv cv : ℚ) : Regression :=
  let change := (bv - cv) / bv
  { rtype := "lighthouse"
    metric := key ++ "-" ++ m.name
    baseline := bv
    current := cv
    change := change
    severity := if change > 1/5 then "critical" else "moderate"
    description := "Lighthouse " ++ m.name ++ " degraded by " ++
      formatPct change ++ " for " ++ key }

/-- Inner loop of `analyze_lighthouse_regression`: for each of the four
score categories of one matched device-page key, read both values with
default `0`, guard on a positive baseline, and flag when the relative
drop exceeds the threshold. -/
def lighthouseMetricRegs (key : String) (bi ci : LighthouseItem)
    (threshold : ℚ) : List Regression :=
  lhMetrics.filterMap (fun m =>
    let bv := (lhMetricValue bi m).getD 0
    let cv := (lhMetricValue ci m).getD 0
    if bv > 0 then
      if (bv - cv) / bv > threshold then some (mkLhRegression key m bv cv)
      else none
    else none)

/-- `analyze_lighthouse_regression` (lines 97-143): group both sides by
the device-page key, and for every baseline key also present on the
current side compare the four score categories. -/
def analyze_lighthouse_regression (bl cur : List LighthouseItem)
    (threshold : ℚ) : List Regression :=
  let bg := groupByKey lhKey bl
  let cg := groupByKey lhKey cur
  bg.flatMap (fun p =>
    match cg.lookup p.1 with
    | none => []
    | some ci => lighthouseMetricRegs p.1 p.2 ci threshold)

/-- The response-time regression record of
`analyze_load_test_regression` (lines 171-179). -/
def mkRtRegression (scenario : String) (brt crt : ℚ) : Regression :=
  let change := (crt - brt) / brt
  { rtype := "load_test"
    metric := scenario ++ "-response_time"
    baseline := brt
    current := crt
    change := change
    severity := if change > 1/2 then "critical" else "moderate"
    description := "Response time increased by " ++ formatPct change ++
      " for " ++ scenario ++ " scenario" }

/-- The error-rate regression record of `analyze_load_test_regression`
(lines 188-196); the severity is the literal `'critical'`. -/
def mkErrRegression (scenario : String) (be ce : ℚ) : Regression :=
  let change := ce - be
  { rtype := "load_test"
    metric := scenario ++ "-error_rate"
    baseline := be
    current := ce
    change := change
    severity := "critical"
    description := "Error rate increased by " ++ formatPct change ++
      " for " ++ scenario ++ " scenario" }

/-- Body of the per-scenario loop of `analyze_load_test_regression`:
the response-time check (relative increase against the configurable
threshold) followed by the error-rate check (absolute increase against
the fixed `0.01`). -/
def loadTestScenarioRegs (scenario : String) (bi ci : LoadTestItem)
    (threshold : ℚ) : List Regression :=
  let brt := bi.durationAvg.getD 0
  let crt := ci.durationAvg.getD 0
  let rtRegs :=
    if brt > 0 then
      if (crt - brt) / brt > threshold then [mkRtRegression scenario brt crt]
      else []
    else []
  let be := bi.failedRate.getD 0
  let ce := ci.failedRate.getD 0
  let errRegs :=
    if ce - be > 1/100 then [mkErrRegression scenario be ce] else []
  rtRegs ++ errRegs

/-- `analyze_load_test_regression` (lines 145-198): group both sides by
scenario name and compare every scenario present on both sides. -/
def analyze_load_test_regression (bl cur : List LoadTestItem)
    (threshold : ℚ) : List Regression :=
  let bg := groupByKey ltKey bl
  let cg := groupByKey ltKey cur
  bg.flatMap (fun p =>
    match cg.lookup p.1 with
    | none => []
    | some ci => loadTestScenarioRegs p.1 p.2 ci threshold)

/-- The benchmark regression record of `analyze_benchmark_regression`
(lines 231-240): the test name defaults to
`f"{test_type}-test-{i}"` when the baseline entry has no `title`. -/
def mkBenchRegression (tt : BenchType) (i : ℕ) (br cr : BenchResult) :
    Regression :=
  let bt := br.duration.getD 0
  let ct := cr.duration.getD 0
  let change := (ct - bt) / bt
  let test_name := br.title.getD (tt.name ++ "-test-" ++ toString i)
  { rtype := "benchmark"
    metric := tt.name ++ "-" ++ test_name
    baseline := bt
    current := ct
    change := change
    severity := "moderate"
    description := "Benchmark " ++ test_name ++
      " execution time increased by " ++ formatPct change }

/-- Per-pair body of the benchmark loop: guard on a positive baseline
duration and flag when the relative increase exceeds the threshold. -/
def benchPairRegs (tt : BenchType) (threshold : ℚ) (i : ℕ)
    (br cr : BenchResult) : List Regression :=
  let btime := br.duration.getD 0
  let ctime := cr.duration.getD 0
  if btime > 0 then
    if (ctime - btime) / btime > threshold then [mkBenchRegression tt i br cr]
    else []
  else []

/-- `analyze_benchmark_regression` (lines 200-242): for each of the
three categories present (non-falsy) on both sides, walk the baseline
`testResults` by index (`for i, baseline_result in enumerate(...)`),
skipping indices past the end of the current array
(`if i >= len(current_results): continue`). -/
def analyze_benchmark_regression (bb cb : Benchmarks) (threshold : ℚ) :
    List Regression :=
  benchTypes.flatMap (fun tt =>
    match bb.get tt, cb.get tt with
    | some bt, some ct =>
      (List.range bt.testResults.length).flatMap (fun i =>
        ((bt.testResults[i]?).bind (fun br =>
          (ct.testResults[i]?).map (fun cr =>
            benchPairRegs tt threshold i br cr))).getD [])
    | _, _ => [])

/-- `analyze_bundle_regression` (lines 244-271): compare `totalSize`
of the two bundle snapshots, skipping entirely when either snapshot is
absent or empty (falsy); the description records the absolute byte
delta. -/
def analyze_bundle_regression (baseline_bundle current_bundle :
    Option BundleData) (threshold : ℚ) : List Regression :=
  match baseline_bundle, current_bundle with
  | some bb, some cb =>
    let baseline_size := bb.totalSize.getD 0
    let current_size := cb.totalSize.getD 0
    if baseline_size > 0 then
      let size_change : ℚ :=
        ((current_size : ℚ) - (baseline_size : ℚ)) / (baseline_size : ℚ)
      if size_change > threshold then
        [{ rtype := "bundle"
           metric := "total_size"
           baseline := (baseline_size : ℚ)
           current := (current_size : ℚ)
           change := size_change
           severity := "moderate"
           description := "Bundle size increased by " ++
             formatPct size_change ++ " (" ++
             toString (current_size - baseline_size) ++ " bytes)" }]
      else []
    else []
  | _, _ => []

/-- The fixed bundle advisory message. -/
def bundleRec : String :=
  "📦 Bundle size increased - consider code splitting, tree shaking, or dependency analysis"

/-- The fixed Lighthouse advisory message. -/
def lighthouseRec : String :=
  "🔍 Lighthouse scores degraded - review Core Web Vitals, optimize images, and minimize JavaScript"

/-- The fixed load-test advisory message. -/
def loadRec : String :=
  "⚡ Load test performance degraded - check database queries, API responses, and server resources"

/-- The fixed benchmark advisory message. -/
def benchmarkRec : String :=
  "🧮 Benchmark performance degraded - review algorithm implementations and memory usage"

/-- The fixed critical-regression warning message. -/
def criticalRec : String :=
  "🚨 Critical regressions detected - consider blocking deployment until resolved"

/-- The fixed no-regression message. -/
def noRegRec : String :=
  "✅ No significant performance regressions detected"

/-- `generate_recommendations` (lines 307-349): one fixed message per
metric family with at least one regression (Python truthiness of the
family's filtered list), in the order bundle, lighthouse, load test,
benchmark, then the critical warning if any critical regression
exists; if nothing was appended, the single positive message. -/
def generate_recommendations (regressions : List Regression) :
    List String :=
  let recs : List String :=
    (if regressions.filter (fun r => r.rtype == "bundle") ≠ [] then
      [bundleRec] else []) ++
    (if regressions.filter (fun r => r.rtype == "lighthouse") ≠ [] then
      [lighthouseRec] else []) ++
    (if regressions.filter (fun r => r.rtype == "load_test") ≠ [] then
      [loadRec] else []) ++
    (if regressions.filter (fun r => r.rtype == "benchmark") ≠ [] then
      [benchmarkRec] else []) ++
    (if regressions.filter (fun r => r.severity == "critical") ≠ [] then
      [criticalRec] else [])
  if recs = [] then [noRegRec] else recs

/-- The report dictionary built by `analyze_regressions`
(lines 297-305). -/
structure Report where
  summary : String
  regressions : List Regression
  criticalRegressions : List Regression
  moderateRegressions : List Regression
  recommendations : List String
  threshold : ℚ
  timestamp : String
  deriving DecidableEq, Repr

/-- `analyze_regressions` (lines 273-305): concatenate the four
comparator outputs, partition by severity, build the summary and the
recommendations.  The wall-clock `datetime.now().isoformat()` is passed
in as the `timestamp` argument. -/
def analyze_regressions (baseline current : PerfData) (threshold : ℚ)
    (timestamp : String) : Report :=
  let all_regressions :=
    analyze_lighthouse_regression baseline.lighthouse current.lighthouse
        threshold ++
    analyze_load_test_regression baseline.loadTests current.loadTests
        threshold ++
    analyze_benchmark_regression baseline.benchmarks current.benchmarks
        threshold ++
    analyze_bundle_regression baseline.bundle current.bundle threshold
  let critical_regressions :=
    all_regressions.filter (fun r => r.severity == "critical")
  let moderate_regressions :=
    all_regressions.filter (fun r => r.severity == "moderate")
  let summary :=
    "Found " ++ toString all_regressions.length ++
      " performance regressions" ++
    (if critical_regressions ≠ [] then
      " (" ++ toString critical_regressions.length ++ " critical)"
     else "")
  { summary := summary
    regressions := all_regressions
    criticalRegressions := critical_regressions
    moderateRegressions := moderate_regressions
    recommendations := generate_recommendations all_regressions
    threshold := threshold
    timestamp := timestamp }

/-- `main` (lines 362-405): exit `1` when the baseline load, the
current-data load or the report write fails, exit `1` when the report
holds at least one critical regression, and exit `0` otherwise.  The
two loads are modelled by `Option` arguments (`none` is a failed load)
and the report write by the `saveOk` flag. -/
def main (baseline current : Option PerfData) (threshold : ℚ)
    (timestamp : String) (saveOk : Bool) : ℤ :=
  match baseline with
  | none => 1
  | some b =>
    match current with
    | none => 1
    | some c =>
      let report := analyze_regressions b c threshold timestamp
      if saveOk = false then 1
      else if report.criticalRegressions ≠ [] then 1
      else 0

/-! ### Association-list lemmas for the dict grouping -/

/-- Auxiliary: `getLast?` of a cons, as a fallback pair. -/
theorem getLast?_cons_or {α : Type} (x : α) (t : List α) :
    (x :: t).getLast? = t.getLast?.or (some x) := by
  induction t generalizing x with
  | nil => rfl
  | cons y ys ih =>
    rw [List.getLast?_cons_cons, ih y, Option.or_assoc, Option.or_some]

/-- Auxiliary: `lookup` at a cons cell, in `if` form. -/
theorem lookup_cons_if {α : Type} (k' : String) (v : α)
    (g : List (String × α)) (k : String) :
    ((k', v) :: g).lookup k = if k' = k then some v else g.lookup k := by
  rw [List.lookup_cons]
  by_cases h : k = k'
  · subst h; simp
  · have hb : (k == k') = false := by simpa using h
    rw [hb]
    simp [Ne.symm h]

/-- Auxiliary: `lookup` distributes over append as a fallback pair. -/
theorem lookup_append {α : Type} (g₁ g₂ : List (String × α)) (k : String) :
    (g₁ ++ g₂).lookup k = (g₁.lookup k).or (g₂.lookup k) := by
  induction g₁ with
  | nil => simp
  | cons p g ih =>
    obtain ⟨k', v⟩ := p
    rw [List.cons_append, lookup_cons_if, lookup_cons_if]
    by_cases h : k' = k <;> simp [h, ih]

/-- Auxiliary: key presence as `any` agrees with `lookup`. -/
theorem any_key_eq_lookup_isSome {α : Type} (g : List (String × α))
    (k : String) :
    g.any (fun p => p.1 == k) = (g.lookup k).isSome := by
  induction g with
  | nil => rfl
  | cons p g ih =>
    obtain ⟨k', v⟩ := p
    rw [List.any_cons, lookup_cons_if]
    by_cases h : k' = k <;> simp [h, ih]

/-- Auxiliary: `lookup` after the value-overwrite `map` of
`insertKey`. -/
theorem lookup_map_overwrite {α : Type} (g : List (String × α))
    (k' : String) (v : α) (k : String) :
    (g.map (fun p => if p.1 = k' then (p.1, v) else p)).lookup k =
      if k' = k then (g.lookup k).map (fun _ => v) else g.lookup k := by
  induction g with
  | nil => by_cases h : k' = k <;> simp [h]
  | cons p g ih =>
    obtain ⟨a, b⟩ := p
    rw [List.map_cons]
    by_cases h1 : a = k'
    · subst h1
      by_cases h2 : a = k
      · subst h2; simp [lookup_cons_if]
      · simp [lookup_cons_if, h2, ih]
    · by_cases h2 : a = k
      · subst h2
        have hkk : ¬ k' = a := fun hc => h1 hc.symm
        simp [lookup_cons_if, hkk, h1]
      · simp [lookup_cons_if, h1, h2, ih]

/-- Dict-assignment semantics: after `insertKey g k' v` the key `k'`
maps to `v` and every other key is unchanged. -/
theorem lookup_insertKey {α : Type} (g : List (String × α)) (k' : String)
    (v : α) (k : String) :
    (insertKey g k' v).lookup k = if k' = k then some v else g.lookup k := by
  unfold insertKey
  by_cases hany : g.any (fun p => p.1 == k') = true
  · rw [if_pos hany, lookup_map_overwrite]
    by_cases h : k' = k
    · subst h
      rw [any_key_eq_lookup_isSome] at hany
      obtain ⟨w, hw⟩ := Option.isSome_iff_exists.mp hany
      simp [hw]
    · simp [h]
  · rw [if_neg hany, lookup_append, lookup_cons_if]
    have hnone : g.lookup k' = none := by
      rw [any_key_eq_lookup_isSome] at hany
      exact Option.not_isSome_iff_eq_none.mp (by simpa using hany)
    by_cases h : k' = k
    · subst h; simp [hnone]
    · simp [h, Option.or_none]

/-- The grouping fold with an arbitrary starting dict: the result of a
lookup is the last matching element of the list, with the starting
dict as fallback. -/
theorem lookup_foldl_insert {α : Type} (key : α → String) (l : List α)
    (g : List (String × α)) (k : String) :
    ((l.foldl (fun g it => insertKey g (key it) it) g).lookup k) =
      ((l.filter (fun x => key x == k)).getLast?).or (g.lookup k) := by
  induction l generalizing g with
  | nil => simp
  | cons x xs ih =>
    rw [List.foldl_cons, ih, List.filter_cons]
    by_cases h : key x = k
    · rw [if_pos (by simpa using h), getLast?_cons_or, Option.or_assoc]
      simp [lookup_insertKey, h]
    · rw [if_neg (by simpa using h)]
      simp [lookup_insertKey, h]

/-- Grouping semantics of the Python dict loops: a grouped key maps to
the last record of the input list carrying that key. -/
theorem lookup_groupByKey {α : Type} (key : α → String) (l : List α)
    (k : String) :
    (groupByKey key l).lookup k =
      (l.filter (fun x => key x == k)).getLast? := by
  rw [groupByKey, lookup_foldl_insert]
  simp [Option.or_none]

/-- `insertKey` preserves distinctness of keys. -/
theorem nodupKeys_insertKey {α : Type} (g : List (String × α))
    (k : String) (v : α) (h : (g.map Prod.fst).Nodup) :
    ((insertKey g k v).map Prod.fst).Nodup := by
  unfold insertKey
  by_cases hany : g.any (fun p => p.1 == k) = true
  · rw [if_pos hany, List.map_map]
    have : (Prod.fst ∘ fun p : String × α =>
        if p.1 = k then (p.1, v) else p) = Prod.fst := by
      funext p
      by_cases hp : p.1 = k <;> simp [hp]
    rwa [this]
  · rw [if_neg hany, List.map_append]
    have hk : k ∉ g.map Prod.fst := by
      intro hmem
      obtain ⟨p, hp, hpk⟩ := List.mem_map.mp hmem
      have hb : (p.1 == k) = true := by simpa using hpk
      exact hany (List.any_eq_true.mpr ⟨p, hp, hb⟩)
    simp only [List.map_cons, List.map_nil]
    exact List.Nodup.append h (List.nodup_singleton k)
      (by simpa [List.disjoint_singleton] using hk)

/-- The grouping fold preserves distinctness of keys. -/
theorem nodupKeys_foldl_insert {α : Type} (key : α → String) (l : List α)
    (g : List (String × α)) (h : (g.map Prod.fst).Nodup) :
    (((l.foldl (fun g it => insertKey g (key it) it) g)).map
      Prod.fst).Nodup := by
  induction l generalizing g with
  | nil => exact h
  | cons x xs ih =>
    rw [List.foldl_cons]
    exact ih _ (nodupKeys_insertKey _ _ _ h)

/-- The keys of a grouped dict are distinct. -/
theorem nodupKeys_groupByKey {α : Type} (key : α → String) (l : List α) :
    ((groupByKey key l).map Prod.fst).Nodup :=
  nodupKeys_foldl_insert key l [] (by simp)

/-- In a dict with distinct keys, membership of an entry determines the
lookup. -/
theorem lookup_eq_some_of_mem {α : Type} {g : List (String × α)}
    (h : (g.map Prod.fst).Nodup) {k : String} {v : α}
    (hm : (k, v) ∈ g) : g.lookup k = some v := by
  induction g with
  | nil => cases hm
  | cons p g ih =>
    obtain ⟨a, b⟩ := p
    rw [lookup_cons_if]
    rcases List.mem_cons.mp hm with heq | htl
    · obtain ⟨rfl, rfl⟩ := Prod.mk.injEq .. ▸ heq
      simp
    · by_cases hak : a = k
      · subst hak
        exfalso
        have : a ∈ g.map Prod.fst := List.mem_map.mpr ⟨(a, v), htl, rfl⟩
        exact (List.nodup_cons.mp (by simpa using h)).1 this
      · rw [if_neg hak]
        exact ih (List.nodup_cons.mp (by simpa using h)).2 htl

/-- A successful lookup exhibits a member of the dict. -/
theorem mem_of_lookup_eq_some {α : Type} {g : List (String × α)}
    {k : String} {v : α} (h : g.lookup k = some v) : (k, v) ∈ g := by
  induction g with
  | nil => simp at h
  | cons p g ih =>
    obtain ⟨a, b⟩ := p
    rw [lookup_cons_if] at h
    by_cases hak : a = k
    · subst hak
      rw [if_pos rfl] at h
      exact List.mem_cons.mpr (Or.inl (by simpa using h.symm))
    · rw [if_neg hak] at h
      exact List.mem_cons.mpr (Or.inr (ih h))

/-! ### String lemmas for decoding the `metric` field of a record -/

/-- Two appends with a common right factor have equal left factors. -/
theorem string_append_cancel_right {s₁ s₂ : String} (t : String)
    (h : s₁ ++ t = s₂ ++ t) : s₁ = s₂ := by
  have hd := congrArg String.data h
  simp only [String.data_append] at hd
  exact String.ext (List.append_inj_left' hd rfl)

/-- Two appends are distinct whenever the right factors differ at some
position counted from the end. -/
theorem string_suffix_probe_ne (s₁ s₂ t₁ t₂ : String) (i : ℕ)
    (h₁ : i < t₁.data.length) (h₂ : i < t₂.data.length)
    (hne : t₁.data.reverse[i]? ≠ t₂.data.reverse[i]?) :
    s₁ ++ t₁ ≠ s₂ ++ t₂ := by
  intro h
  apply hne
  have hd := congrArg (fun s => (List.reverse (String.data s))[i]?) h
  simp only [String.data_append, List.reverse_append] at hd
  rwa [List.getElem?_append_left (by simpa using h₁),
    List.getElem?_append_left (by simpa using h₂)] at hd

/-- The Lighthouse `metric` string `f"{key}-{metric}"` determines both
the device-page key and the score category: the four category names
end in pairwise distinct characters. -/
theorem lh_metric_string_inj {k₁ k₂ : String} {m₁ m₂ : LhMetric}
    (h : k₁ ++ "-" ++ m₁.name = k₂ ++ "-" ++ m₂.name) :
    k₁ = k₂ ∧ m₁ = m₂ := by
  cases m₁ <;> cases m₂ <;> simp only [LhMetric.name] at h <;>
    first
      | exact ⟨string_append_cancel_right _
          (string_append_cancel_right _ h), rfl⟩
      | exact absurd h (string_suffix_probe_ne _ _ _ _ 0
          (by decide) (by decide) (by decide))

/-- The load-test error-rate `metric` string determines the scenario. -/
theorem err_metric_string_inj {s₁ s₂ : String}
    (h : s₁ ++ "-error_rate" = s₂ ++ "-error_rate") : s₁ = s₂ :=
  string_append_cancel_right _ h

/-- A response-time `metric` string is never an error-rate `metric`
string (the two suffixes differ one character before their final
`'e'`). -/
theorem rt_metric_ne_err_metric (s₁ s₂ : String) :
    s₁ ++ "-response_time" ≠ s₂ ++ "-error_rate" :=
  string_suffix_probe_ne _ _ _ _ 1 (by decide) (by decide) (by decide)

/-! ### Membership characterizations of the comparator outputs -/

/-- Every score category is in the fixed iteration list. -/
theorem mem_lhMetrics (m : LhMetric) : m ∈ lhMetrics := by
  cases m <;> simp [lhMetrics]

/-- What it takes for a record to be produced by the inner Lighthouse
loop. -/
theorem mem_lighthouseMetricRegs {key : String} {bi ci : LighthouseItem}
    {t : ℚ} {r : Regression} :
    r ∈ lighthouseMetricRegs key bi ci t ↔
      ∃ m : LhMetric, (lhMetricValue bi m).getD 0 > 0 ∧
        ((lhMetricValue bi m).getD 0 - (lhMetricValue ci m).getD 0) /
          (lhMetricValue bi m).getD 0 > t ∧
        r = mkLhRegression key m ((lhMetricValue bi m).getD 0)
          ((lhMetricValue ci m).getD 0) := by
  unfold lighthouseMetricRegs
  rw [List.mem_filterMap]
  constructor
  · rintro ⟨m, _, hf⟩
    dsimp only at hf
    by_cases h1 : (lhMetricValue bi m).getD 0 > 0
    · rw [if_pos h1] at hf
      by_cases h2 : ((lhMetricValue bi m).getD 0 -
          (lhMetricValue ci m).getD 0) / (lhMetricValue bi m).getD 0 > t
      · rw [if_pos h2] at hf
        exact ⟨m, h1, h2, (Option.some_inj.mp hf).symm⟩
      · rw [if_neg h2] at hf; cases hf
    · rw [if_neg h1] at hf; cases hf
  · rintro ⟨m, h1, h2, rfl⟩
    refine ⟨m, mem_lhMetrics m, ?_⟩
    dsimp only
    rw [if_pos h1, if_pos h2]

/-- What it takes for a record to be produced by
`analyze_lighthouse_regression`. -/
theorem mem_analyze_lighthouse {bl cur : List LighthouseItem} {t : ℚ}
    {r : Regression} :
    r ∈ analyze_lighthouse_regression bl cur t ↔
      ∃ p, p ∈ groupByKey lhKey bl ∧ ∃ ci,
        (groupByKey lhKey cur).lookup p.1 = some ci ∧
        r ∈ lighthouseMetricRegs p.1 p.2 ci t := by
  simp only [analyze_lighthouse_regression, List.mem_flatMap]
  constructor
  · rintro ⟨p, hp, hr⟩
    rcases hlk : (groupByKey lhKey cur).lookup p.1 with _ | ci
    · rw [hlk] at hr; cases hr
    · rw [hlk] at hr; exact ⟨p, hp, ci, hlk, hr⟩
  · rintro ⟨p, hp, ci, hlk, hr⟩
    exact ⟨p, hp, by rw [hlk]; exact hr⟩

/-- A page-audit regression for the pair `(k, m)` is emitted exactly
when `k` is grouped on both sides, the baseline value of `m` is
positive, and the relative drop exceeds the threshold. -/
theorem exists_lighthouse_metric_iff (bl cur : List LighthouseItem)
    (t : ℚ) (k : String) (m : LhMetric) :
    (∃ r ∈ analyze_lighthouse_regression bl cur t,
        r.metric = k ++ "-" ++ m.name) ↔
      (∃ bi ci, (groupByKey lhKey bl).lookup k = some bi ∧
        (groupByKey lhKey cur).lookup k = some ci ∧
        (lhMetricValue bi m).getD 0 > 0 ∧
        ((lhMetricValue bi m).getD 0 - (lhMetricValue ci m).getD 0) /
          (lhMetricValue bi m).getD 0 > t) := by
  constructor
  · rintro ⟨r, hr, hmet⟩
    obtain ⟨p, hp, ci, hlk, hr2⟩ := mem_analyze_lighthouse.mp hr
    obtain ⟨m', h1, h2, rfl⟩ := mem_lighthouseMetricRegs.mp hr2
    have hmet' : p.1 ++ "-" ++ m'.name = k ++ "-" ++ m.name := hmet
    obtain ⟨hk, hm⟩ := lh_metric_string_inj hmet'
    subst hm
    have hb : (groupByKey lhKey bl).lookup k = some p.2 := by
      rw [← hk]
      exact lookup_eq_some_of_mem (nodupKeys_groupByKey _ _)
        (by rw [Prod.mk.eta]; exact hp)
    refine ⟨p.2, ci, hb, by rw [← hk]; exact hlk, h1, h2⟩
  · rintro ⟨bi, ci, hb, hc, h1, h2⟩
    refine ⟨mkLhRegression k m ((lhMetricValue bi m).getD 0)
      ((lhMetricValue ci m).getD 0), ?_, rfl⟩
    exact mem_analyze_lighthouse.mpr
      ⟨(k, bi), mem_of_lookup_eq_some hb, ci, hc,
        mem_lighthouseMetricRegs.mpr ⟨m, h1, h2, rfl⟩⟩

/-- Severity rule of every emitted page-audit regression: `critical`
exactly when the relative drop exceeds `0.20`, `moderate` otherwise. -/
theorem lighthouse_severity_rule (bl cur : List LighthouseItem) (t : ℚ) :
    ∀ r ∈ analyze_lighthouse_regression bl cur t,
      (r.severity = "critical" ↔ r.change > 1/5) ∧
      (r.severity = "moderate" ↔ ¬ r.change > 1/5) := by
  intro r hr
  obtain ⟨p, hp, ci, hlk, hr2⟩ := mem_analyze_lighthouse.mp hr
  obtain ⟨m', h1, h2, rfl⟩ := mem_lighthouseMetricRegs.mp hr2
  have hch : (mkLhRegression p.1 m' ((lhMetricValue p.2 m').getD 0)
      ((lhMetricValue ci m').getD 0)).change =
      ((lhMetricValue p.2 m').getD 0 - (lhMetricValue ci m').getD 0) /
        (lhMetricValue p.2 m').getD 0 := rfl
  by_cases h5 : ((lhMetricValue p.2 m').getD 0 -
      (lhMetricValue ci m').getD 0) / (lhMetricValue p.2 m').getD 0 > 1/5
  · have hs : (mkLhRegression p.1 m' ((lhMetricValue p.2 m').getD 0)
        ((lhMetricValue ci m').getD 0)).severity = "critical" := if_pos h5
    rw [hs, hch]
    exact ⟨⟨fun _ => h5, fun _ => rfl⟩,
      ⟨fun h => absurd h (by decide), fun hn => absurd h5 hn⟩⟩
  · have hs : (mkLhRegression p.1 m' ((lhMetricValue p.2 m').getD 0)
        ((lhMetricValue ci m').getD 0)).severity = "moderate" := if_neg h5
    rw [hs, hch]
    exact ⟨⟨fun h => absurd h (by decide), fun h => absurd h h5⟩,
      ⟨fun _ => h5, fun _ => rfl⟩⟩

/-- Claim C1: for every baseline/current snapshot pair, every
device-page key `k` and every score category `m`, a page-audit
regression for `(k, m)` is emitted iff `k` is grouped on both sides,
the baseline value of `m` is positive, and the relative drop
`(baseline - current) / baseline` exceeds the threshold; the severity
of every emitted page-audit regression is `critical` exactly when that
drop exceeds `0.20` and `moderate` otherwise.  Keys present on only
one side produce nothing, since emission requires both lookups to
succeed. -/
theorem lighthouse_regression_iff (bl cur : List LighthouseItem) (t : ℚ)
    (k : String) (m : LhMetric) :
    ((∃ r ∈ analyze_lighthouse_regression bl cur t,
        r.metric = k ++ "-" ++ m.name) ↔
      (∃ bi ci, (groupByKey lhKey bl).lookup k = some bi ∧
        (groupByKey lhKey cur).lookup k = some ci ∧
        (lhMetricValue bi m).getD 0 > 0 ∧
        ((lhMetricValue bi m).getD 0 - (lhMetricValue ci m).getD 0) /
          (lhMetricValue bi m).getD 0 > t)) ∧
    (∀ r ∈ analyze_lighthouse_regression bl cur t,
      (r.severity = "critical" ↔ r.change > 1/5) ∧
      (r.severity = "moderate" ↔ ¬ r.change > 1/5)) :=
  ⟨exists_lighthouse_metric_iff bl cur t k m,
    lighthouse_severity_rule bl cur t⟩

/-- What it takes for a record to be produced by the per-scenario body
of the load-test loop. -/
theorem mem_loadTestScenarioRegs {s : String} {bi ci : LoadTestItem}
    {t : ℚ} {r : Regression} :
    r ∈ loadTestScenarioRegs s bi ci t ↔
      ((bi.durationAvg.getD 0 > 0 ∧
        (ci.durationAvg.getD 0 - bi.durationAvg.getD 0) /
          bi.durationAvg.getD 0 > t ∧
        r = mkRtRegression s (bi.durationAvg.getD 0)
          (ci.durationAvg.getD 0)) ∨
       (ci.failedRate.getD 0 - bi.failedRate.getD 0 > 1/100 ∧
        r = mkErrRegression s (bi.failedRate.getD 0)
          (ci.failedRate.getD 0))) := by
  unfold loadTestScenarioRegs
  by_cases h1 : bi.durationAvg.getD 0 > 0 <;>
    by_cases h2 : (ci.durationAvg.getD 0 - bi.durationAvg.getD 0) /
      bi.durationAvg.getD 0 > t <;>
    by_cases h3 : ci.failedRate.getD 0 - bi.failedRate.getD 0 > 1/100 <;>
    simp [h1, h2, h3]

/-- What it takes for a record to be produced by
`analyze_load_test_regression`. -/
theorem mem_analyze_load_test {bl cur : List LoadTestItem} {t : ℚ}
    {r : Regression} :
    r ∈ analyze_load_test_regression bl cur t ↔
      ∃ p, p ∈ groupByKey ltKey bl ∧ ∃ ci,
        (groupByKey ltKey cur).lookup p.1 = some ci ∧
        r ∈ loadTestScenarioRegs p.1 p.2 ci t := by
  simp only [analyze_load_test_regression, List.mem_flatMap]
  constructor
  · rintro ⟨p, hp, hr⟩
    rcases hlk : (groupByKey ltKey cur).lookup p.1 with _ | ci
    · rw [hlk] at hr; cases hr
    · rw [hlk] at hr; exact ⟨p, hp, ci, hlk, hr⟩
  · rintro ⟨p, hp, ci, hlk, hr⟩
    exact ⟨p, hp, by rw [hlk]; exact hr⟩

/-- Claim C2: for every pair of load-test snapshots and every scenario
`s`, an error-rate regression for `s` is emitted iff `s` is grouped on
both sides and the error rate rose by strictly more than `0.01`; every
emitted error-rate regression has severity `critical`; and none of
this depends on the configurable threshold `t`, which does not occur
in the right-hand side of the equivalence. -/
theorem error_rate_regression_iff (bl cur : List LoadTestItem) (t : ℚ)
    (s : String) :
    ((∃ r ∈ analyze_load_test_regression bl cur t,
        r.metric = s ++ "-error_rate") ↔
      (∃ bi ci, (groupByKey ltKey bl).lookup s = some bi ∧
        (groupByKey ltKey cur).lookup s = some ci ∧
        ci.failedRate.getD 0 - bi.failedRate.getD 0 > 1/100)) ∧
    (∀ r ∈ analyze_load_test_regression bl cur t,
      r.metric = s ++ "-error_rate" → r.severity = "critical") := by
  constructor
  · constructor
    · rintro ⟨r, hr, hmet⟩
      obtain ⟨p, hp, ci, hlk, hr2⟩ := mem_analyze_load_test.mp hr
      rcases mem_loadTestScenarioRegs.mp hr2 with ⟨_, _, rfl⟩ | ⟨h3, rfl⟩
      · exact absurd hmet (rt_metric_ne_err_metric p.1 s)
      · have hks : p.1 = s := err_metric_string_inj hmet
        refine ⟨p.2, ci, ?_, by rw [← hks]; exact hlk, h3⟩
        rw [← hks]
        exact lookup_eq_some_of_mem (nodupKeys_groupByKey _ _)
          (by rw [Prod.mk.eta]; exact hp)
    · rintro ⟨bi, ci, hb, hc, h3⟩
      refine ⟨mkErrRegression s (bi.failedRate.getD 0)
        (ci.failedRate.getD 0), ?_, rfl⟩
      exact mem_analyze_load_test.mpr
        ⟨(s, bi), mem_of_lookup_eq_some hb, ci, hc,
          mem_loadTestScenarioRegs.mpr (Or.inr ⟨h3, rfl⟩)⟩
  · intro r hr hmet
    obtain ⟨p, hp, ci, hlk, hr2⟩ := mem_analyze_load_test.mp hr
    rcases mem_loadTestScenarioRegs.mp hr2 with ⟨_, _, rfl⟩ | ⟨_, rfl⟩
    · exact absurd hmet (rt_metric_ne_err_metric p.1 s)
    · rfl

/-- What it takes for a record to be produced by the per-pair body of
the benchmark loop. -/
theorem mem_benchPairRegs {tt : BenchType} {t : ℚ} {i : ℕ}
    {br cr : BenchResult} {r : Regression} :
    r ∈ benchPairRegs tt t i br cr ↔
      br.duration.getD 0 > 0 ∧
      (cr.duration.getD 0 - br.duration.getD 0) / br.duration.getD 0 > t ∧
      r = mkBenchRegression tt i br cr := by
  unfold benchPairRegs
  by_cases h1 : br.duration.getD 0 > 0 <;>
    by_cases h2 : (cr.duration.getD 0 - br.duration.getD 0) /
      br.duration.getD 0 > t <;>
    simp [h1, h2]

/-- Reference form of the benchmark comparator, written from the
spec's words: entries are matched positionally by zipping the two
`testResults` arrays (so comparison is truncated to the shorter array
and extra entries on either side are ignored), and the pair at index
`i` is flagged when the baseline duration is positive and the relative
duration increase exceeds the threshold. -/
def benchmark_regression_spec (bb cb : Benchmarks) (t : ℚ) :
    List Regression :=
  benchTypes.flatMap (fun tt =>
    match bb.get tt, cb.get tt with
    | some bt, some ct =>
      ((bt.testResults.zip ct.testResults).enum).filterMap (fun q =>
        if q.2.1.duration.getD 0 > 0 ∧
            (q.2.2.duration.getD 0 - q.2.1.duration.getD 0) /
              q.2.1.duration.getD 0 > t then
          some (mkBenchRegression tt q.1 q.2.1 q.2.2)
        else none)
    | _, _ => [])

/-- The indexed loop `for i, baseline_result in enumerate(...)` with
the `i >= len(current_results)` guard is the flatMap over the
enumerated zip of the two arrays. -/
theorem range_match_eq_zip_enum {α β γ : Type} (bs : List α)
    (cs : List β) (f : ℕ → α → β → List γ) :
    (List.range bs.length).flatMap (fun i =>
      ((bs[i]?).bind (fun b => (cs[i]?).map (fun c => f i b c))).getD []) =
    ((bs.zip cs).enum).flatMap (fun q => f q.1 q.2.1 q.2.2) := by
  induction bs generalizing cs f with
  | nil => simp
  | cons b bs ih =>
    cases cs with
    | nil =>
      rw [List.zip_nil_right]
      simp only [List.enum_nil, List.flatMap_nil]
      rw [List.flatMap_eq_nil_iff]
      intro i _
      cases h : (b :: bs)[i]? <;> simp [h]
    | cons c cs' =>
      have ihx := ih cs' (fun i x y => f (i + 1) x y)
      rw [List.length_cons, List.range_succ_eq_map, List.flatMap_cons,
        List.flatMap_map, List.zip_cons_cons, List.enum_cons',
        List.flatMap_cons, List.flatMap_map]
      simp only [Nat.succ_eq_add_one, List.getElem?_cons_succ,
        List.getElem?_cons_zero, Option.some_bind, Option.map_some',
        Option.getD_some, Prod.map_apply', id_eq]
      rw [ihx]

/-- Claim C7: the benchmark comparator equals its positional
zip-and-truncate reference form, and every benchmark regression has
severity `moderate`. -/
theorem benchmark_regression_spec_eq (bb cb : Benchmarks) (t : ℚ) :
    analyze_benchmark_regression bb cb t = benchmark_regression_spec bb cb t ∧
    (analyze_benchmark_regression bb cb t).all
      (fun r => r.severity == "moderate") = true := by
  have heq : analyze_benchmark_regression bb cb t =
      benchmark_regression_spec bb cb t := by
    unfold analyze_benchmark_regression benchmark_regression_spec
    apply congrArg
    funext tt
    cases hbt : bb.get tt with
    | none => rfl
    | some bt =>
      cases hct : cb.get tt with
      | none => rfl
      | some ct =>
        dsimp only
        rw [range_match_eq_zip_enum bt.testResults ct.testResults
          (fun i br cr => benchPairRegs tt t i br cr)]
        have : ∀ q : ℕ × (BenchResult × BenchResult),
            benchPairRegs tt t q.1 q.2.1 q.2.2 =
            (if q.2.1.duration.getD 0 > 0 ∧
                (q.2.2.duration.getD 0 - q.2.1.duration.getD 0) /
                  q.2.1.duration.getD 0 > t then
              some (mkBenchRegression tt q.1 q.2.1 q.2.2)
            else none).toList := by
          intro q
          unfold benchPairRegs
          by_cases h1 : q.2.1.duration.getD 0 > 0 <;>
            by_cases h2 : (q.2.2.duration.getD 0 -
              q.2.1.duration.getD 0) / q.2.1.duration.getD 0 > t <;>
            simp [h1, h2]
        calc ((bt.testResults.zip ct.testResults).enum).flatMap
              (fun q => benchPairRegs tt t q.1 q.2.1 q.2.2)
            = ((bt.testResults.zip ct.testResults).enum).flatMap
              (fun q => (if q.2.1.duration.getD 0 > 0 ∧
                  (q.2.2.duration.getD 0 - q.2.1.duration.getD 0) /
                    q.2.1.duration.getD 0 > t then
                some (mkBenchRegression tt q.1 q.2.1 q.2.2)
              else none).toList) := by
                apply congrArg; funext q; exact this q
          _ = ((bt.testResults.zip ct.testResults).enum).filterMap
              (fun q => if q.2.1.duration.getD 0 > 0 ∧
                  (q.2.2.duration.getD 0 - q.2.1.duration.getD 0) /
                    q.2.1.duration.getD 0 > t then
                some (mkBenchRegression tt q.1 q.2.1 q.2.2)
              else none) := by
                rw [← List.filterMap_eq_flatMap_toList]
  refine ⟨heq, ?_⟩
  rw [List.all_eq_true]
  intro r hr
  simp only [analyze_benchmark_regression, List.mem_flatMap] at hr
  obtain ⟨tt, _, hr⟩ := hr
  rcases hbt : bb.get tt with _ | bt
  · rw [hbt] at hr; dsimp only at hr; cases hr
  · rcases hct : cb.get tt with _ | ct
    · rw [hbt, hct] at hr; dsimp only at hr; cases hr
    · rw [hbt, hct] at hr
      dsimp only at hr
      rw [List.mem_flatMap] at hr
      obtain ⟨i, _, hri⟩ := hr
      rcases hbi : bt.testResults[i]? with _ | br
      · rw [hbi] at hri; simp at hri
      · rcases hci : ct.testResults[i]? with _ | cr
        · rw [hbi, hci] at hri; simp at hri
        · rw [hbi, hci] at hri
          simp only [Option.some_bind, Option.map_some',
            Option.getD_some] at hri
          obtain ⟨_, _, rfl⟩ := mem_benchPairRegs.mp hri
          rfl

/-! ### Severity of every emitted record -/

/-- Every Lighthouse regression is `critical` or `moderate`. -/
theorem severity_of_mem_lighthouse {bl cur : List LighthouseItem}
    {t : ℚ} {r : Regression}
    (h : r ∈ analyze_lighthouse_regression bl cur t) :
    r.severity = "critical" ∨ r.severity = "moderate" := by
  obtain ⟨p, _, ci, _, hr2⟩ := mem_analyze_lighthouse.mp h
  obtain ⟨m, _, _, rfl⟩ := mem_lighthouseMetricRegs.mp hr2
  by_cases h5 : ((lhMetricValue p.2 m).getD 0 -
      (lhMetricValue ci m).getD 0) / (lhMetricValue p.2 m).getD 0 > 1/5
  · exact Or.inl (if_pos h5)
  · exact Or.inr (if_neg h5)

/-- Every load-test regression is `critical` or `moderate`. -/
theorem severity_of_mem_load_test {bl cur : List LoadTestItem}
    {t : ℚ} {r : Regression}
    (h : r ∈ analyze_load_test_regression bl cur t) :
    r.severity = "critical" ∨ r.severity = "moderate" := by
  obtain ⟨p, _, ci, _, hr2⟩ := mem_analyze_load_test.mp h
  rcases mem_loadTestScenarioRegs.mp hr2 with ⟨_, _, rfl⟩ | ⟨_, rfl⟩
  · by_cases h5 : (ci.durationAvg.getD 0 - p.2.durationAvg.getD 0) /
      p.2.durationAvg.getD 0 > 1/2
    · exact Or.inl (if_pos h5)
    · exact Or.inr (if_neg h5)
  · exact Or.inl rfl

/-- Every benchmark regression is `moderate`. -/
theorem severity_of_mem_benchmark {bb cb : Benchmarks} {t : ℚ}
    {r : Regression} (h : r ∈ analyze_benchmark_regression bb cb t) :
    r.severity = "moderate" := by
  simp only [analyze_benchmark_regression, List.mem_flatMap] at h
  obtain ⟨tt, _, hr⟩ := h
  rcases hbt : bb.get tt with _ | bt
  · rw [hbt] at hr; dsimp only at hr; cases hr
  · rcases hct : cb.get tt with _ | ct
    · rw [hbt, hct] at hr; dsimp only at hr; cases hr
    · rw [hbt, hct] at hr
      dsimp only at hr
      rw [List.mem_flatMap] at hr
      obtain ⟨i, _, hri⟩ := hr
      rcases hbi : bt.testResults[i]? with _ | br
      · rw [hbi] at hri; simp at hri
      · rcases hci : ct.testResults[i]? with _ | cr
        · rw [hbi, hci] at hri; simp at hri
        · rw [hbi, hci] at hri
          simp only [Option.some_bind, Option.map_some',
            Option.getD_some] at hri
          obtain ⟨_, _, rfl⟩ := mem_benchPairRegs.mp hri
          rfl

/-- Every bundle regression is `moderate`. -/
theorem severity_of_mem_bundle {b c : Option BundleData} {t : ℚ}
    {r : Regression} (h : r ∈ analyze_bundle_regression b c t) :
    r.severity = "moderate" := by
  rcases b with _ | bb
  · simp [analyze_bundle_regression] at h
  · rcases c with _ | cb
    · simp [analyze_bundle_regression] at h
    · simp only [analyze_bundle_regression] at h
      by_cases h1 : bb.totalSize.getD 0 > 0
      · rw [if_pos h1] at h
        by_cases h2 : ((cb.totalSize.getD 0 : ℚ) -
            (bb.totalSize.getD 0 : ℚ)) / (bb.totalSize.getD 0 : ℚ) > t
        · rw [if_pos h2] at h
          rw [List.mem_singleton] at h
          subst h; rfl
        · rw [if_neg h2] at h; cases h
      · rw [if_neg h1] at h; cases h

/-- Every record of the aggregated `regressions` list is `critical` or
`moderate`. -/
theorem severity_of_mem_regressions {b c : PerfData} {t : ℚ}
    {ts : String} {r : Regression}
    (h : r ∈ (analyze_regressions b c t ts).regressions) :
    r.severity = "critical" ∨ r.severity = "moderate" := by
  have h' : r ∈ analyze_lighthouse_regression b.lighthouse c.lighthouse t ++
      analyze_load_test_regression b.loadTests c.loadTests t ++
      analyze_benchmark_regression b.benchmarks c.benchmarks t ++
      analyze_bundle_regression b.bundle c.bundle t := h
  rcases List.mem_append.mp h' with h3 | hbundle
  · rcases List.mem_append.mp h3 with h2 | hbench
    · rcases List.mem_append.mp h2 with hlh | hload
      · exact severity_of_mem_lighthouse hlh
      · exact severity_of_mem_load_test hload
    · exact Or.inr (severity_of_mem_benchmark hbench)
  · exact Or.inr (severity_of_mem_bundle hbundle)

/-- Filtering a two-valued severity field partitions the length. -/
theorem length_filter_severity (l : List Regression)
    (h : ∀ r ∈ l, r.severity = "critical" ∨ r.severity = "moderate") :
    (l.filter (fun r => r.severity == "critical")).length +
      (l.filter (fun r => r.severity == "moderate")).length = l.length := by
  induction l with
  | nil => rfl
  | cons r l ih =>
    have hl := fun x hx => h x (List.mem_cons_of_mem r hx)
    have hihl := ih hl
    rcases h r (List.mem_cons_self r l) with hc | hm
    · have e1 : (r.severity == "critical") = true := by rw [hc]; decide
      have e2 : (r.severity == "moderate") = false := by rw [hc]; decide
      rw [List.filter_cons, List.filter_cons, e1, e2, if_pos rfl,
        if_neg (by decide)]
      simp only [List.length_cons]
      omega
    · have e1 : (r.severity == "critical") = false := by rw [hm]; decide
      have e2 : (r.severity == "moderate") = true := by rw [hm]; decide
      rw [List.filter_cons, List.filter_cons, e1, e2, if_pos rfl,
        if_neg (by decide)]
      simp only [List.length_cons]
      omega

/-- Claim C3: in every generated report, `criticalRegressions` and
`moderateRegressions` partition `regressions`: every record of
`regressions` lies in exactly one of the two lists, the two lists are
disjoint and contain only records of `regressions`, and their lengths
add up to the length of `regressions`. -/
theorem report_partition (b c : PerfData) (t : ℚ) (ts : String) :
    (∀ r ∈ (analyze_regressions b c t ts).regressions,
      (r ∈ (analyze_regressions b c t ts).criticalRegressions ∧
        r ∉ (analyze_regressions b c t ts).moderateRegressions) ∨
      (r ∈ (analyze_regressions b c t ts).moderateRegressions ∧
        r ∉ (analyze_regressions b c t ts).criticalRegressions)) ∧
    (∀ r, (r ∈ (analyze_regressions b c t ts).criticalRegressions ∨
        r ∈ (analyze_regressions b c t ts).moderateRegressions) →
      r ∈ (analyze_regressions b c t ts).regressions) ∧
    (∀ r, ¬ (r ∈ (analyze_regressions b c t ts).criticalRegressions ∧
        r ∈ (analyze_regressions b c t ts).moderateRegressions)) ∧
    (analyze_regressions b c t ts).criticalRegressions.length +
      (analyze_regressions b c t ts).moderateRegressions.length =
      (analyze_regressions b c t ts).regressions.length := by
  have hc : (analyze_regressions b c t ts).criticalRegressions =
      (analyze_regressions b c t ts).regressions.filter
        (fun r => r.severity == "critical") := rfl
  have hm : (analyze_regressions b c t ts).moderateRegressions =
      (analyze_regressions b c t ts).regressions.filter
        (fun r => r.severity == "moderate") := rfl
  refine ⟨?_, ?_, ?_, ?_⟩
  · intro r hr
    rcases severity_of_mem_regressions hr with hcrit | hmod
    · left
      constructor
      · rw [hc]
        exact List.mem_filter.mpr ⟨hr, by rw [hcrit]; decide⟩
      · intro hmem
        rw [hm] at hmem
        have h2 := (List.mem_filter.mp hmem).2
        rw [hcrit] at h2
        exact absurd h2 (by decide)
    · right
      constructor
      · rw [hm]
        exact List.mem_filter.mpr ⟨hr, by rw [hmod]; decide⟩
      · intro hmem
        rw [hc] at hmem
        have h2 := (List.mem_filter.mp hmem).2
        rw [hmod] at h2
        exact absurd h2 (by decide)
  · intro r hor
    rcases hor with hmem | hmem
    · rw [hc] at hmem
      exact (List.mem_filter.mp hmem).1
    · rw [hm] at hmem
      exact (List.mem_filter.mp hmem).1
  · rintro r ⟨h1, h2⟩
    rw [hc] at h1
    rw [hm] at h2
    have e1 := (List.mem_filter.mp h1).2
    have e2 := (List.mem_filter.mp h2).2
    have hc' : r.severity = "critical" := by simpa using e1
    have hm' : r.severity = "moderate" := by simpa using e2
    rw [hc'] at hm'
    exact absurd hm' (by decide)
  · rw [hc, hm]
    exact length_filter_severity _ (fun r hr =>
      severity_of_mem_regressions hr)

/-! ### Exit code, determinism, and the missing-field policy -/

/-- Claim C5: given that the baseline load, the current-data load and
the report write all succeed, the process exit code is `1` iff the
report holds at least one critical regression, and `0` iff it holds
none — independently of the moderate regressions, which the exit path
never consults. -/
theorem exit_code_iff (b c : PerfData) (t : ℚ) (ts : String) :
    (main (some b) (some c) t ts true = 1 ↔
      (analyze_regressions b c t ts).criticalRegressions ≠ []) ∧
    (main (some b) (some c) t ts true = 0 ↔
      (analyze_regressions b c t ts).criticalRegressions = []) := by
  unfold main
  by_cases h : (analyze_regressions b c t ts).criticalRegressions = [] <;>
    simp [h]

/-- Claim C9: the analysis is deterministic — two runs on equal
baseline and current snapshots with equal thresholds produce equal
`regressions`, `criticalRegressions`, `moderateRegressions` and
`recommendations`, whatever the two wall-clock timestamps are. -/
theorem analysis_deterministic (b₁ b₂ c₁ c₂ : PerfData) (t₁ t₂ : ℚ)
    (ts₁ ts₂ : String) (hb : b₁ = b₂) (hc : c₁ = c₂) (ht : t₁ = t₂) :
    (analyze_regressions b₁ c₁ t₁ ts₁).regressions =
      (analyze_regressions b₂ c₂ t₂ ts₂).regressions ∧
    (analyze_regressions b₁ c₁ t₁ ts₁).criticalRegressions =
      (analyze_regressions b₂ c₂ t₂ ts₂).criticalRegressions ∧
    (analyze_regressions b₁ c₁ t₁ ts₁).moderateRegressions =
      (analyze_regressions b₂ c₂ t₂ ts₂).moderateRegressions ∧
    (analyze_regressions b₁ c₁ t₁ ts₁).recommendations =
      (analyze_regressions b₂ c₂ t₂ ts₂).recommendations := by
  subst hb; subst hc; subst ht
  exact ⟨rfl, rfl, rfl, rfl⟩

/-- The baseline page-audit record of the missing-field example: the
`performance` score is present. -/
def lhBaselineSample : LighthouseItem :=
  { device := some "mobile", page := some "home",
    performance := some (9/10), accessibility := none,
    bestPractices := none, seo := none }

/-- The current page-audit record of the missing-field example: the
`performance` score is absent. -/
def lhCurrentSample : LighthouseItem :=
  { device := some "mobile", page := some "home",
    performance := none, accessibility := none,
    bestPractices := none, seo := none }

/-- Claim C4 counterexample: a current-run page-audit record lacking
the `performance` score category is not silently skipped.  The missing
value defaults to `0`, the relative drop is `1.0 > 0.1`, and a
page-audit regression is emitted for that very category. -/
theorem missing_current_field_emits :
    ∃ r ∈ analyze_lighthouse_regression [lhBaselineSample]
        [lhCurrentSample] (1/10),
      r.metric = "mobile-home" ++ "-" ++ LhMetric.performance.name := by
  rw [exists_lighthouse_metric_iff]
  refine ⟨lhBaselineSample, lhCurrentSample, rfl, rfl, ?_, ?_⟩
  · show ((some ((9:ℚ)/10)).getD 0) > 0
    norm_num
  · show ((some ((9:ℚ)/10)).getD 0 - (none : Option ℚ).getD 0) /
      (some ((9:ℚ)/10)).getD 0 > 1/10
    norm_num

/-- Claim C4, amended: an absent optional score category is read as
`0` rather than being skipped outright; no error is ever raised.  When
the baseline-side category is absent, the `baseline > 0` guard fails
and the comparison is silently skipped.  When the current-side
category is absent while the baseline value is positive, the
comparison runs against `0` and a regression for that category is
emitted iff `1 > threshold`. -/
theorem missing_field_amended (bl cur : List LighthouseItem) (t : ℚ)
    (k : String) (m : LhMetric) (bi ci : LighthouseItem)
    (hb : (groupByKey lhKey bl).lookup k = some bi)
    (hc : (groupByKey lhKey cur).lookup k = some ci) :
    (lhMetricValue bi m = none →
      ¬ ∃ r ∈ analyze_lighthouse_regression bl cur t,
          r.metric = k ++ "-" ++ m.name) ∧
    (lhMetricValue ci m = none → (lhMetricValue bi m).getD 0 > 0 →
      ((∃ r ∈ analyze_lighthouse_regression bl cur t,
          r.metric = k ++ "-" ++ m.name) ↔ (1 : ℚ) > t)) := by
  constructor
  · intro hnone hex
    obtain ⟨bi', ci', hb', hc', h1, h2⟩ :=
      (exists_lighthouse_metric_iff bl cur t k m).mp hex
    have hbi : bi' = bi := Option.some_inj.mp (hb'.symm.trans hb)
    rw [hbi, hnone] at h1
    exact absurd h1 (lt_irrefl 0)
  · intro hnone hpos
    rw [exists_lighthouse_metric_iff bl cur t k m]
    constructor
    · rintro ⟨bi', ci', hb', hc', h1, h2⟩
      have hbi : bi' = bi := Option.some_inj.mp (hb'.symm.trans hb)
      have hci : ci' = ci := Option.some_inj.mp (hc'.symm.trans hc)
      rw [hbi, hci, hnone] at h2
      rw [Option.getD_none, sub_zero,
        div_self (ne_of_gt hpos)] at h2
      exact h2
    · intro h1t
      refine ⟨bi, ci, hb, hc, hpos, ?_⟩
      rw [hnone, Option.getD_none, sub_zero, div_self (ne_of_gt hpos)]
      exact h1t

/-! ### Recommendations -/

/-- Python truthiness of a filtered list agrees with `any`. -/
theorem filter_ne_nil_iff_any {α : Type} {p : α → Bool} {l : List α} :
    l.filter p ≠ [] ↔ l.any p = true := by
  constructor
  · intro hne
    rcases hl : l.filter p with _ | ⟨x, xs⟩
    · exact absurd hl hne
    · have hx : x ∈ l.filter p := hl ▸ List.mem_cons_self x xs
      have hx' := List.mem_filter.mp hx
      exact List.any_eq_true.mpr ⟨x, hx'.1, hx'.2⟩
  · intro hany hnil
    obtain ⟨x, hm, hp⟩ := List.any_eq_true.mp hany
    have hx : x ∈ l.filter p := List.mem_filter.mpr ⟨hm, hp⟩
    rw [hnil] at hx
    cases hx

/-- Reference form of the recommendations, written from the spec's
words: if there are no regressions, exactly the single positive
message; otherwise one fixed message per family that has at least one
regression, in the order bundle, page audit, load test, benchmark,
followed by the fixed critical warning iff any regression is
critical. -/
def recommendations_spec (regs : List Regression) : List String :=
  if regs = [] then [noRegRec]
  else
    (if regs.any (fun r => r.rtype == "bundle") then [bundleRec]
      else []) ++
    (if regs.any (fun r => r.rtype == "lighthouse") then [lighthouseRec]
      else []) ++
    (if regs.any (fun r => r.rtype == "load_test") then [loadRec]
      else []) ++
    (if regs.any (fun r => r.rtype == "benchmark") then [benchmarkRec]
      else []) ++
    (if regs.any (fun r => r.severity == "critical") then [criticalRec]
      else [])

/-- Claim C6: on every regression list whose records carry one of the
four family tags (as every record produced by the four comparators
does), `generate_recommendations` equals the reference definition
written from the spec: one fixed message per family present, in the
order bundle, page audit, load test, benchmark, then the critical
warning iff any critical regression exists; and the empty list yields
exactly the single positive message. -/
theorem generate_recommendations_eq_spec (regs : List Regression)
    (h : ∀ r ∈ regs, r.rtype = "bundle" ∨ r.rtype = "lighthouse" ∨
      r.rtype = "load_test" ∨ r.rtype = "benchmark") :
    generate_recommendations regs = recommendations_spec regs := by
  cases regs with
  | nil => rfl
  | cons r rs =>
    have hhead := h r (List.mem_cons_self r rs)
    have key : ∀ s : String, r.rtype = s →
        (r :: rs).filter (fun x => x.rtype == s) ≠ [] := by
      intro s hs hn
      have hmem : r ∈ (r :: rs).filter (fun x => x.rtype == s) :=
        List.mem_filter.mpr ⟨List.mem_cons_self r rs, by rw [hs]; simp⟩
      rw [hn] at hmem
      cases hmem
    have hrecs :
        ((if (r :: rs).filter (fun x => x.rtype == "bundle") ≠ [] then
            [bundleRec] else []) ++
         (if (r :: rs).filter (fun x => x.rtype == "lighthouse") ≠ [] then
            [lighthouseRec] else []) ++
         (if (r :: rs).filter (fun x => x.rtype == "load_test") ≠ [] then
            [loadRec] else []) ++
         (if (r :: rs).filter (fun x => x.rtype == "benchmark") ≠ [] then
            [benchmarkRec] else []) ++
         (if (r :: rs).filter (fun x => x.severity == "critical") ≠ []
            then [criticalRec] else [])) ≠ [] := by
      intro hn
      simp only [List.append_eq_nil] at hn
      obtain ⟨⟨⟨⟨hA, hB⟩, hC⟩, hD⟩, _⟩ := hn
      rcases hhead with h4 | h4 | h4 | h4
      · rw [if_pos (key _ h4)] at hA
        exact List.cons_ne_nil _ _ hA
      · rw [if_pos (key _ h4)] at hB
        exact List.cons_ne_nil _ _ hB
      · rw [if_pos (key _ h4)] at hC
        exact List.cons_ne_nil _ _ hC
      · rw [if_pos (key _ h4)] at hD
        exact List.cons_ne_nil _ _ hD
    simp only [generate_recommendations, recommendations_spec]
    rw [if_neg hrecs, if_neg (List.cons_ne_nil r rs)]
    have e₁ : (if (r :: rs).filter (fun x => x.rtype == "bundle") ≠ []
        then [bundleRec] else ([] : List String)) =
        (if (r :: rs).any (fun x => x.rtype == "bundle") then [bundleRec]
          else []) := if_congr filter_ne_nil_iff_any rfl rfl
    have e₂ : (if (r :: rs).filter (fun x => x.rtype == "lighthouse") ≠ []
        then [lighthouseRec] else ([] : List String)) =
        (if (r :: rs).any (fun x => x.rtype == "lighthouse") then
          [lighthouseRec] else []) := if_congr filter_ne_nil_iff_any rfl rfl
    have e₃ : (if (r :: rs).filter (fun x => x.rtype == "load_test") ≠ []
        then [loadRec] else ([] : List String)) =
        (if (r :: rs).any (fun x => x.rtype == "load_test") then [loadRec]
          else []) := if_congr filter_ne_nil_iff_any rfl rfl
    have e₄ : (if (r :: rs).filter (fun x => x.rtype == "benchmark") ≠ []
        then [benchmarkRec] else ([] : List String)) =
        (if (r :: rs).any (fun x => x.rtype == "benchmark") then
          [benchmarkRec] else []) := if_congr filter_ne_nil_iff_any rfl rfl
    have e₅ : (if (r :: rs).filter (fun x => x.severity == "critical") ≠ []
        then [criticalRec] else ([] : List String)) =
        (if (r :: rs).any (fun x => x.severity == "critical") then
          [criticalRec] else []) := if_congr filter_ne_nil_iff_any rfl rfl
    rw [e₁, e₂, e₃, e₄, e₅]

/-! ### Bundle evaluation and duplicate-key grouping -/

/-- `roundHalfEven` is the identity on integers. -/
theorem roundHalfEven_intCast (n : ℤ) : roundHalfEven ((n : ℚ)) = n := by
  simp only [roundHalfEven, Int.floor_intCast, sub_self]
  rw [if_pos (by norm_num : (0:ℚ) < 1/2)]

/-- Evaluation of the percent format when the scaled value is an
integer. -/
theorem formatPct_of_eq_intCast (q : ℚ) (n : ℤ) (h : q * 1000 = (n : ℚ)) :
    formatPct q =
      toString (n / 10) ++ "." ++ toString (n % 10) ++ "%" := by
  simp only [formatPct, h, roundHalfEven_intCast]

/-- The percent format renders `3/20` as `15.0%`. -/
theorem formatPct_three_twentieths : formatPct (3/20) = "15.0%" := by
  rw [formatPct_of_eq_intCast (3/20) 150 (by norm_num)]
  rfl

/-- Claim C8: on a baseline bundle of `totalSize` 1000 and a current
bundle of `totalSize` 1150 with threshold `0.1`, the bundle comparator
emits exactly one regression, with change `0.15`, severity `moderate`,
and a description containing the substring `"150 bytes"`. -/
theorem bundle_regression_c8 :
    ∃ r : Regression,
      analyze_bundle_regression (some ⟨some 1000⟩) (some ⟨some 1150⟩)
        (1/10) = [r] ∧
      r.change = 15/100 ∧ r.severity = "moderate" ∧
      ∃ a b : String, r.description = a ++ "150 bytes" ++ b := by
  simp only [analyze_bundle_regression, Option.getD_some]
  rw [if_pos (by norm_num : (1000:ℤ) > 0)]
  rw [if_pos (show (((1150:ℤ):ℚ) - ((1000:ℤ):ℚ)) / ((1000:ℤ):ℚ) > 1/10
    by norm_num)]
  refine ⟨_, rfl, ?_, rfl,
    ⟨"Bundle size increased by 15.0% (", ")", ?_⟩⟩
  · show (((1150:ℤ):ℚ) - ((1000:ℤ):ℚ)) / ((1000:ℤ):ℚ) = 15/100
    norm_num
  · show "Bundle size increased by " ++
        formatPct ((((1150:ℤ):ℚ) - ((1000:ℤ):ℚ)) / ((1000:ℤ):ℚ)) ++
        " (" ++ toString ((1150:ℤ) - (1000:ℤ)) ++ " bytes)" =
      "Bundle size increased by 15.0% (" ++ "150 bytes" ++ ")"
    rw [show (((1150:ℤ):ℚ) - ((1000:ℤ):ℚ)) / ((1000:ℤ):ℚ) = 3/20
      from by norm_num, formatPct_three_twentieths]
    rfl

/-- Claim C10: grouping implements Python dict assignment.  A grouped
key maps to the last record of the input carrying that key, so an
earlier duplicate is overwritten and never takes part in any
comparison: deleting it leaves every grouped lookup unchanged.
Records with a missing `device` or `page` field are grouped under the
key built from `"unknown"` (and a load-test record with no `scenario`
under `"unknown"`), so such records match each other. -/
theorem grouping_last_record_wins :
    (∀ {α : Type} (key : α → String) (l : List α) (k : String),
      (groupByKey key l).lookup k =
        (l.filter (fun x => key x == k)).getLast?) ∧
    (∀ {α : Type} (key : α → String) (l₁ l₂ : List α) (x : α),
      (∃ y ∈ l₂, key y = key x) → ∀ k,
      (groupByKey key (l₁ ++ x :: l₂)).lookup k =
        (groupByKey key (l₁ ++ l₂)).lookup k) ∧
    (∀ it : LighthouseItem, it.device = none → it.page = none →
      lhKey it = "unknown-unknown") ∧
    (∀ it : LoadTestItem, it.scenario = none → ltKey it = "unknown") := by
  refine ⟨?_, ?_, ?_, ?_⟩
  · intro α key l k
    exact lookup_groupByKey key l k
  · intro α key l₁ l₂ x hx k
    rw [lookup_groupByKey, lookup_groupByKey, List.filter_append,
      List.filter_append, List.filter_cons]
    by_cases hkx : (key x == k) = true
    · rw [if_pos hkx]
      obtain ⟨y, hy, hyx⟩ := hx
      have hyk : (key y == k) = true := by rw [hyx]; exact hkx
      have hne : l₂.filter (fun z => key z == k) ≠ [] := by
        intro hn
        have hmem : y ∈ l₂.filter (fun z => key z == k) :=
          List.mem_filter.mpr ⟨hy, hyk⟩
        rw [hn] at hmem
        cases hmem
      obtain ⟨w, ws, hws⟩ := List.exists_cons_of_ne_nil hne
      rw [hws]
      rw [List.getLast?_append_of_ne_nil _ (List.cons_ne_nil _ _),
        List.getLast?_cons_cons,
        List.getLast?_append_of_ne_nil _ (List.cons_ne_nil _ _)]
    · rw [if_neg hkx]
  · intro it h1 h2
    simp only [lhKey, h1, h2, Option.getD_none]
    rfl
  · intro it h1
    simp only [ltKey, h1, Option.getD_none]

/-! ### Concrete witnesses -/

/-- A concrete bundle regression record, used to exercise the
recommendation generator. -/
def sampleRegression : Regression :=
  { rtype := "bundle", metric := "total_size", baseline := 1000,
    current := 1150, change := 15/100, severity := "moderate",
    description := "Bundle size increased" }

/-- A concrete performance snapshot. -/
def samplePerfData : PerfData :=
  { lighthouse := [lhBaselineSample], loadTests := [],
    benchmarks := ⟨none, none, none⟩, bundle := some ⟨some 1000⟩ }

/-- Witness for the amended claim C4, at a concrete snapshot pair: the
score category missing on the baseline side yields no regression,
while the one missing on the current side yields a regression exactly
because `1 > 0.1`. -/
theorem missing_field_amended_witness :
    (¬ ∃ r ∈ analyze_lighthouse_regression [lhBaselineSample]
        [lhCurrentSample] (1/10),
      r.metric = "mobile-home" ++ "-" ++ LhMetric.seo.name) ∧
    ((∃ r ∈ analyze_lighthouse_regression [lhBaselineSample]
        [lhCurrentSample] (1/10),
      r.metric = "mobile-home" ++ "-" ++ LhMetric.performance.name) ↔
      (1:ℚ) > 1/10) :=
  ⟨(missing_field_amended [lhBaselineSample] [lhCurrentSample] (1/10)
      "mobile-home" .seo lhBaselineSample lhCurrentSample rfl rfl).1 rfl,
   (missing_field_amended [lhBaselineSample] [lhCurrentSample] (1/10)
      "mobile-home" .performance lhBaselineSample lhCurrentSample rfl
      rfl).2 rfl (by show (0:ℚ) < (9:ℚ)/10; norm_num)⟩

/-- Witness for claim C6 at a concrete one-record regression list. -/
theorem generate_recommendations_eq_spec_witness :
    generate_recommendations [sampleRegression] =
      recommendations_spec [sampleRegression] :=
  generate_recommendations_eq_spec [sampleRegression] (by
    intro r hr
    rw [List.mem_singleton] at hr
    subst hr
    left
    rfl)

/-- Witness for claim C9 at a concrete snapshot, with two different
timestamps. -/
theorem analysis_deterministic_witness :
    (analyze_regressions samplePerfData samplePerfData (1/10)
        "2024-01-01T00:00:00").regressions =
      (analyze_regressions samplePerfData samplePerfData (1/10)
        "2024-06-30T12:00:00").regressions ∧
    (analyze_regressions samplePerfData samplePerfData (1/10)
        "2024-01-01T00:00:00").criticalRegressions =
      (analyze_regressions samplePerfData samplePerfData (1/10)
        "2024-06-30T12:00:00").criticalRegressions ∧
    (analyze_regressions samplePerfData samplePerfData (1/10)
        "2024-01-01T00:00:00").moderateRegressions =
      (analyze_regressions samplePerfData samplePerfData (1/10)
        "2024-06-30T12:00:00").moderateRegressions ∧
    (analyze_regressions samplePerfData samplePerfData (1/10)
        "2024-01-01T00:00:00").recommendations =
      (analyze_regressions samplePerfData samplePerfData (1/10)
        "2024-06-30T12:00:00").recommendations :=
  analysis_deterministic samplePerfData samplePerfData samplePerfData
    samplePerfData (1/10) (1/10) "2024-01-01T00:00:00"
    "2024-06-30T12:00:00" rfl rfl rfl

end RegressionAnalysis
